import Mathlib

/-!
Verification development for the pickfinder-scraper defense-strength
reconciliation pipeline.

The TypeScript sources are embedded shallowly:

* string values are Lean `String` (a structure holding a `List Char`);
  JavaScript `toUpperCase` / `toLowerCase` are modelled on the ASCII
  letters, `trim` drops leading and trailing whitespace characters
  (space, tab, newline, carriage return), `String.prototype.includes`
  is contiguous-sublist containment;
* the object-literal alias tables (`teamMap`, `statMap`,
  `teamVariations`, `statAliases`) are association lists looked up on
  their own keys, in source order;
* the Playwright page is abstracted away: the extraction engine of
  `scrape-today-players.ts` is modelled as a function of the raw
  observation lists that the per-position extraction passes and the two
  fallback extraction passes would produce, with the record assembly,
  rank filtering and fallback control flow taken from the source.
-/

/-! ## Character-level primitives -/

/-- Association-list lookup used to model JavaScript object-literal
tables: first entry whose key equals the query wins. -/
def tblGet {α β : Type} [DecidableEq α] : List (α × β) → α → Option β
  | [], _ => none
  | (k, v) :: rest, key => if key = k then some v else tblGet rest key

/-- Lower-case/upper-case ASCII letter pairs, used to model
`toUpperCase`. -/
def ulPairs : List (Char × Char) :=
  [('a', 'A'), ('b', 'B'), ('c', 'C'), ('d', 'D'), ('e', 'E'), ('f', 'F'),
   ('g', 'G'), ('h', 'H'), ('i', 'I'), ('j', 'J'), ('k', 'K'), ('l', 'L'),
   ('m', 'M'), ('n', 'N'), ('o', 'O'), ('p', 'P'), ('q', 'Q'), ('r', 'R'),
   ('s', 'S'), ('t', 'T'), ('u', 'U'), ('v', 'V'), ('w', 'W'), ('x', 'X'),
   ('y', 'Y'), ('z', 'Z')]

/-- Upper-case/lower-case ASCII letter pairs, used to model
`toLowerCase`. -/
def luPairs : List (Char × Char) := ulPairs.map (fun p => (p.2, p.1))

/-- ASCII upper-casing of one character (identity off `a`-`z`). -/
def charUp (c : Char) : Char := (tblGet ulPairs c).getD c

/-- ASCII lower-casing of one character (identity off `A`-`Z`). -/
def charLow (c : Char) : Char := (tblGet luPairs c).getD c

/-- Whitespace test for the JavaScript `trim` / `\s` model. -/
def isWSC (c : Char) : Bool := c = ' ' || c = '\t' || c = '\n' || c = '\r'

/-- Decimal-digit test (JavaScript `\d`). -/
def isDigitC (c : Char) : Bool := 48 ≤ c.toNat && c.toNat ≤ 57

/-- JavaScript `\w`: ASCII letter, digit or underscore. -/
def isWordC (c : Char) : Bool :=
  (97 ≤ c.toNat && c.toNat ≤ 122) || (65 ≤ c.toNat && c.toNat ≤ 90) ||
    isDigitC c || c = '_'

/-! ## String-level primitives -/

/-- Both-ends whitespace trim on the character list (JavaScript
`String.prototype.trim`). -/
def wsTrim (l : List Char) : List Char :=
  ((l.dropWhile isWSC).reverse.dropWhile isWSC).reverse

/-- `s.toUpperCase().trim()`, the normalisation applied to keys of the
team alias tables. -/
def upTrim (s : String) : String := ⟨wsTrim (s.data.map charUp)⟩

/-- `s.toLowerCase()`. -/
def strLow (s : String) : String := ⟨s.data.map charLow⟩

/-- Does `l` start with `pat`? -/
def leadMatch : List Char → List Char → Bool
  | _, [] => true
  | [], _ :: _ => false
  | a :: as, b :: bs => a = b && leadMatch as bs

/-- Contiguous-sublist containment of `pat` in `l`. -/
def listHas : List Char → List Char → Bool
  | [], pat => pat.isEmpty
  | a :: as, pat => leadMatch (a :: as) pat || listHas as pat

/-- JavaScript `s.includes(sub)`. -/
def jsIncludes (s sub : String) : Bool := listHas s.data sub.data

/-- Replace every maximal whitespace run by a single space
(JavaScript `replace(/\s+/g, ' ')`). -/
def collapseWS : List Char → List Char
  | [] => []
  | [c] => if isWSC c then [' '] else [c]
  | a :: b :: t =>
    if isWSC a && isWSC b then collapseWS (b :: t)
    else (if isWSC a then ' ' else a) :: collapseWS (b :: t)

/-- Numeric value of a list of decimal digits (the digits of a
`parseInt` argument). -/
def digitsVal (l : List Char) : Nat := l.foldl (fun n c => n * 10 + (c.toNat - 48)) 0

/-- First maximal run of decimal digits in the list, if any
(JavaScript `s.match(/(\d+)/)`). -/
def firstDigitRun : List Char → Option (List Char)
  | [] => none
  | c :: t => if isDigitC c then some (c :: t.takeWhile isDigitC) else firstDigitRun t

/-! ## Canonicalizers

`normalizeStatType` and `normalizeTeamName` are from the PrizePicks
scraper module collected in `src/src/props/collectProps.ts`;
`normalizeTeamForMatching` and `normalizeStatForMatching` are from the
merge module (`mergePropsWithDefense`). -/

/-- Generic `table[key] || key` lookup-with-pass-through. -/
def tableLookupNorm (tbl : List (String × String)) (key : String) : String :=
  (tblGet tbl key).getD key

/-- The `statMap` alias table of `normalizeStatType`, in source order. -/
def statMap : List (String × String) :=
  [("Points", "Points"), ("Pts", "Points"),
   ("Goals", "Goals"),
   ("Assists", "Assists"), ("Asts", "Assists"),
   ("Shots on Goal", "Shots on Goal"), ("SOG", "Shots on Goal"),
   ("Shots", "Shots on Goal"),
   ("Hits", "Hits"),
   ("Blocked Shots", "Blocked Shots"), ("Blocks", "Blocked Shots"),
   ("Time On Ice", "Time On Ice"), ("TOI", "Time On Ice"),
   ("Faceoffs Won", "Faceoffs Won"), ("FOW", "Faceoffs Won"),
   ("Faceoffs Lost", "Faceoffs Lost"), ("FOL", "Faceoffs Lost"),
   ("Faceoffs", "Faceoffs"), ("FO", "Faceoffs"),
   ("Goals Allowed", "Goals Allowed"), ("GA", "Goals Allowed"),
   ("Saves", "Goalie Saves"), ("SV", "Goalie Saves"),
   ("Goalie Saves", "Goalie Saves")]

/-- `normalizeStatType` (the stat canonicalizer, spec name `canonStat`):
`statMap[statType] || statType` — note that the lookup key is the raw
input, neither upper-cased nor trimmed. -/
def normalizeStatType (statType : String) : String := tableLookupNorm statMap statType

/-- The `teamMap` alias table of `normalizeTeamName`, in source order. -/
def teamMap : List (String × String) :=
  [("ARI", "ARI"), ("ATL", "WPG"), ("BOS", "BOS"), ("BUF", "BUF"),
   ("CGY", "CGY"), ("CAR", "CAR"), ("CHI", "CHI"), ("COL", "COL"),
   ("CBJ", "CBJ"), ("DAL", "DAL"), ("DET", "DET"), ("EDM", "EDM"),
   ("FLA", "FLA"), ("LAK", "LAK"), ("LA", "LAK"), ("MIN", "MIN"),
   ("MTL", "MTL"), ("NSH", "NSH"), ("NJD", "NJD"), ("NYI", "NYI"),
   ("NYR", "NYR"), ("OTT", "OTT"), ("PHI", "PHI"), ("PIT", "PIT"),
   ("SJS", "SJS"), ("SEA", "SEA"), ("STL", "STL"), ("TBL", "TBL"),
   ("TOR", "TOR"), ("UTA", "UTA"), ("VAN", "VAN"), ("VGK", "VGK"),
   ("WSH", "WSH"), ("WPG", "WPG")]

/-- `normalizeTeamName` (the team canonicalizer, spec name `canonTeam`):
`teamMap[upper] || upper` on `upper = teamName.toUpperCase().trim()`. -/
def normalizeTeamName (teamName : String) : String :=
  tableLookupNorm teamMap (upTrim teamName)

/-- The `teamVariations` table of the merge module's
`normalizeTeamForMatching`, in source order. -/
def teamVariations : List (String × String) :=
  [("LAK", "LAK"), ("LA", "LAK"), ("NJD", "NJD"), ("NJ", "NJD"),
   ("NYI", "NYI"), ("NYR", "NYR"), ("SJS", "SJS"), ("SJ", "SJS"),
   ("TBL", "TBL"), ("TB", "TBL"), ("VGK", "VGK"), ("VEG", "VGK"),
   ("WSH", "WSH"), ("WAS", "WSH"), ("WPG", "WPG"), ("WIN", "WPG")]

/-- `normalizeTeamForMatching` from the merge module:
`teamVariations[upper] || upper` on `upper = team.toUpperCase().trim()`. -/
def normalizeTeamForMatching (team : String) : String :=
  tableLookupNorm teamVariations (upTrim team)

/-- `normalizeStatForMatching` from the merge module: lower-case,
collapse whitespace runs to one space, strip characters that are
neither word characters nor whitespace, then trim. -/
def normalizeStatForMatching (stat : String) : String :=
  ⟨wsTrim ((collapseWS (stat.data.map charLow)).filter
    (fun c => isWordC c || isWSC c))⟩

/-! ## Data model

`DefenseData`, `PrizePicksProp`, `UnderdogProp` and `MergedProp` follow
`src/src/props/types.ts`. Numeric prop lines are modelled as rationals.
`MergedProp.defenseStrength` is a plain string because both merge
functions always store `... || 'NA'`. -/

/-- Defense record consumed by the Join Engine (`DefenseData` in
`src/src/props/types.ts`): the `position` field carries the stat
category text. -/
structure DefenseData where
  team : String
  opponent : String
  gameTime : String
  position : String
  rank : String
deriving DecidableEq

/-- A scraped PrizePicks prop record. -/
structure PrizePicksProp where
  playerName : String
  team : String
  opponent : String
  statCategory : String
  line : Rat
  projectionId : String
deriving DecidableEq

/-- A scraped Underdog prop record; `position` and `gameTime` are
optional in the source interface. -/
structure UnderdogProp where
  playerName : String
  team : String
  opponent : String
  position : Option String
  stat : String
  line : Rat
  gameTime : Option String
deriving DecidableEq

/-- A merged output record; `projectionId` is only set by the
PrizePicks merge and `gameTime` only by the Underdog merge. -/
structure MergedProp where
  player : String
  team : String
  opponent : String
  position : String
  stat : String
  line : Rat
  defenseStrength : String
  projectionId : Option String
  gameTime : Option String
deriving DecidableEq

/-! ## Join Engine (`mergePropsWithDefense` module, `src/unnamed/part_002`) -/

/-- The `statAliases` table of `findDefenseStrength`, in source order. -/
def statAliases : List (String × List String) :=
  [("points", ["pts", "point", "points"]),
   ("goals", ["goal", "goals"]),
   ("assists", ["asts", "assist", "assists"]),
   ("shots on goal", ["sog", "shots", "shot", "shots on goal", "shot on goal"]),
   ("hits", ["hit", "hits"]),
   ("blocked shots", ["blocks", "blocked", "blocked shots", "block"]),
   ("time on ice", ["toi", "time", "time on ice"]),
   ("faceoffs won", ["fow", "faceoff won", "faceoffs won", "face off won"]),
   ("faceoffs lost", ["fol", "faceoff lost", "faceoffs lost", "face off lost"]),
   ("faceoffs", ["fo", "faceoff", "faceoffs", "face off"]),
   ("goals allowed", ["ga", "goals allowed", "goal allowed"]),
   ("goalie saves", ["saves", "sv", "save", "goalie saves", "goalie save"])]

/-- `aliases.some(alias => normalizedStat === alias ||
normalizedStat.includes(alias) || alias.includes(normalizedStat))`,
the prop-side alias-group membership test used by tiers 3 and 4. -/
def propMatchesAlias (nStat : String) (aliases : List String) : Bool :=
  aliases.any fun a => nStat == a || jsIncludes nStat a || jsIncludes a nStat

/-- Defense-side candidate test of tier 3 for one alias-table entry. -/
def tier3DefMatch (key : String) (aliases : List String) (d : DefenseData) : Bool :=
  let ds := normalizeStatForMatching d.position
  ds == key || jsIncludes ds key || jsIncludes key ds ||
    aliases.any (fun a => ds == a || jsIncludes ds a)

/-- Defense-side candidate test of tier 4 for one alias-table entry. -/
def tier4DefMatch (key : String) (d : DefenseData) : Bool :=
  let ds := normalizeStatForMatching d.position
  ds == key || jsIncludes ds key || jsIncludes key ds

/-- Tier-2 partial-match test: substring containment in either
direction (or equality) between the normalized stat strings. -/
def tier2Match (nStat : String) (d : DefenseData) : Bool :=
  let ds := normalizeStatForMatching d.position
  jsIncludes ds nStat || jsIncludes nStat ds || ds == nStat

/-- The forward alias loop of `findDefenseStrength`: iterate the alias
table in source order; for each group the prop's stat matches, return
the first opponent record matching that group, else continue. -/
def tier3Loop : List (String × List String) → List DefenseData → String → Option String
  | [], _, _ => none
  | (key, aliases) :: rest, oms, nStat =>
    if propMatchesAlias nStat aliases then
      match oms.find? (tier3DefMatch key aliases) with
      | some d => some d.rank
      | none => tier3Loop rest oms nStat
    else tier3Loop rest oms nStat

/-- The reverse alias loop of `findDefenseStrength`: iterate the alias
table in source order; for each group with a matching defense record,
return its rank if the prop's stat also matches the group, else
continue. -/
def tier4Loop : List (String × List String) → List DefenseData → String → Option String
  | [], _, _ => none
  | (key, aliases) :: rest, oms, nStat =>
    match oms.find? (tier4DefMatch key) with
    | some d => if propMatchesAlias nStat aliases then some d.rank else tier4Loop rest oms nStat
    | none => tier4Loop rest oms nStat

/-- `findDefenseStrength` from the merge module, embedded clause by
clause: empty opponent or stat aborts; records are first filtered to
the prop's opponent; then exact stat match, partial match, forward
alias loop and reverse alias loop are tried in that order. -/
def findDefenseStrength (defenseData : List DefenseData)
    (_team opponent statCategory : String) : Option String :=
  if opponent == "" || statCategory == "" then none
  else
    let nOpp := normalizeTeamForMatching opponent
    let nStat := normalizeStatForMatching statCategory
    let oms := defenseData.filter fun d => normalizeTeamForMatching d.opponent == nOpp
    if oms.isEmpty then none
    else
      match oms.find? (fun d => normalizeStatForMatching d.position == nStat) with
      | some d => some d.rank
      | none =>
        match oms.find? (tier2Match nStat) with
        | some d => some d.rank
        | none =>
          match tier3Loop statAliases oms nStat with
          | some r => some r
          | none => tier4Loop statAliases oms nStat

/-- JavaScript `x || 'NA'` on `string | null`. -/
def jsOrNA : Option String → String
  | none => "NA"
  | some r => if r == "" then "NA" else r

/-- `mergePrizePicksProps`: one merged record per prop, in order. -/
def mergePrizePicksProps (props : List PrizePicksProp)
    (defenseData : List DefenseData) : List MergedProp :=
  props.map fun prop =>
    { player := prop.playerName
      team := prop.team
      opponent := prop.opponent
      position := prop.statCategory
      stat := prop.statCategory
      line := prop.line
      defenseStrength :=
        jsOrNA (findDefenseStrength defenseData prop.team prop.opponent prop.statCategory)
      projectionId := some prop.projectionId
      gameTime := none }

/-- `mergeUnderdogProps`: one merged record per prop, in order. -/
def mergeUnderdogProps (props : List UnderdogProp)
    (defenseData : List DefenseData) : List MergedProp :=
  props.map fun prop =>
    { player := prop.playerName
      team := prop.team
      opponent := prop.opponent
      position := prop.position.getD ""
      stat := prop.stat
      line := prop.line
      defenseStrength :=
        jsOrNA (findDefenseStrength defenseData prop.team prop.opponent prop.stat)
      projectionId := none
      gameTime := prop.gameTime }

/-! ## Extraction Engine (`src/scrape-today-players.ts`) -/

/-- Numeric part of a rank text: value of the first digit run
(`rank.match(/(\d+)/)` followed by `parseInt`). -/
def rankNum (rank : String) : Option Nat := (firstDigitRun rank.data).map digitsVal

/-- `isRankInRange`: true when the first digit run of the rank text
parses to a number in `[24, 32]`. -/
def isRankInRange (rank : String) : Bool :=
  match rankNum rank with
  | some n => 24 ≤ n && n ≤ 32
  | none => false

/-- Case-insensitive test for an ordinal-suffix fragment
(`/th|st|nd|rd/i.test(rank)`). -/
def hasOrdSuffix (s : String) : Bool :=
  let l := s.data.map charLow
  listHas l "th".data || listHas l "st".data || listHas l "nd".data || listHas l "rd".data

/-- `/\d+/.test(rank)`. -/
def hasDigit (s : String) : Bool := s.data.any isDigitC

/-- `rank.replace(/\d+/, m => m + 'th')`: append `th` after the first
maximal digit run. -/
def appendThFirst : List Char → List Char
  | [] => []
  | c :: t =>
    if isDigitC c then (c :: t.takeWhile isDigitC) ++ ('t' :: 'h' :: t.dropWhile isDigitC)
    else c :: appendThFirst t

/-- The rank-text normalisation step of the extraction engine (spec
name `normalizeRank`), as written at every extraction site of
`scrape-today-players.ts`: when the text has digits but no ordinal
suffix, `th` is appended to the digit run — unconditionally `th`,
whatever the number. -/
def normalizeRank (rank : String) : String :=
  if !hasOrdSuffix rank && hasDigit rank then ⟨appendThFirst rank.data⟩ else rank

/-- A raw `{position, rank}` observation as returned by one extraction
pass of `extractDefenseDataFromPage` or the inline fallback extractor. -/
structure RawDefenseRow where
  position : String
  rank : String
deriving DecidableEq

/-- The scraper's own `DefenseData` shape (`scrape-today-players.ts`),
whose `stat` field receives the observation's `position` text. -/
structure TodayDefenseData where
  team : String
  opponent : String
  gameTime : String
  stat : String
  rank : String
deriving DecidableEq

/-- The five position filters iterated by `scrapeDefenseData`. -/
def scrapePositions : List String := ["LW", "RW", "C", "D", "G"]

/-- Records accumulated by the five position passes of
`scrapeDefenseData`: each pass's rows are filtered by `isRankInRange`
and the position label is prepended to the stat text. The page itself
is abstracted into `posRows`, the raw observations each position pass
would extract. -/
def positionPassRows (posRows : String → List RawDefenseRow) : List RawDefenseRow :=
  (scrapePositions.map fun pos =>
    ((posRows pos).filter fun r => isRankInRange r.rank).map
      fun r => ⟨pos ++ " - " ++ r.position, r.rank⟩).flatten

/-- State of `allDefenseRows` after the five position passes and the
first fallback block of `scrapeDefenseData`: when the position passes
produced nothing, the rows of a first position-unfiltered extraction
attempt are appended, again filtered by `isRankInRange`. -/
def scrapeStep2 (posRows : String → List RawDefenseRow)
    (fallback1 : List RawDefenseRow) : List RawDefenseRow :=
  if (positionPassRows posRows).isEmpty then
    positionPassRows posRows ++ fallback1.filter (fun r => isRankInRange r.rank)
  else positionPassRows posRows

/-- Record-assembly control flow of `scrapeDefenseData`, with the page
abstracted into the observation lists of its extraction passes: if the
five position passes produce nothing, the rows of a first unfiltered
extraction attempt (`fallback1`, again filtered by `isRankInRange`) are
appended; if there is still nothing, the rows of a second, last-resort
extraction attempt (`fallback2`) are appended with no rank filter. The
two booleans record whether each fallback attempt was consulted. -/
def scrapeDefenseRows (posRows : String → List RawDefenseRow)
    (fallback1 fallback2 : List RawDefenseRow) :
    List RawDefenseRow × Bool × Bool :=
  (if (scrapeStep2 posRows fallback1).isEmpty then
      scrapeStep2 posRows fallback1 ++ fallback2
    else scrapeStep2 posRows fallback1,
   (positionPassRows posRows).isEmpty,
   (scrapeStep2 posRows fallback1).isEmpty)

/-- `scrapeDefenseData`'s returned record list: the assembled rows
tagged with the team, opponent and game time of the run. -/
def scrapeDefenseData (team opponent gameTime : String)
    (posRows : String → List RawDefenseRow)
    (fallback1 fallback2 : List RawDefenseRow) : List TodayDefenseData :=
  ((scrapeDefenseRows posRows fallback1 fallback2).1).map
    fun r => ⟨team, opponent, gameTime, r.position, r.rank⟩

/-- Modelled from the spec's degradation policy for comparison: after
the five position passes produced zero records, exactly one additional
unfiltered extraction attempt is made and the engine then stops
regardless of that attempt's outcome. -/
def scrapeDefenseRowsSpecSingleFallback (posRows : String → List RawDefenseRow)
    (fallback1 : List RawDefenseRow) : List RawDefenseRow :=
  let step1 := positionPassRows posRows
  if step1.isEmpty then fallback1.filter (fun r => isRankInRange r.rank) else step1

/-! ## Spec-side join models for comparison -/

/-- First `some` in a tier list (used to state the spec's strict tier
order). -/
def firstSomeTier : List (Option String) → Option String
  | [] => none
  | some r :: _ => some r
  | none :: rest => firstSomeTier rest

/-- Tier 1 as a standalone function: first opponent record with exactly
equal normalized stat, in list order. -/
def joinTier1 (oms : List DefenseData) (nStat : String) : Option String :=
  (oms.find? fun d => normalizeStatForMatching d.position == nStat).map (·.rank)

/-- Tier 2 as a standalone function: first opponent record whose
normalized stat contains or is contained in the prop's, in list
order. -/
def joinTier2 (oms : List DefenseData) (nStat : String) : Option String :=
  (oms.find? (tier2Match nStat)).map (·.rank)

/-- Tier 3 as a standalone function (the source's forward alias loop,
alias-table order outermost). -/
def joinTier3 (oms : List DefenseData) (nStat : String) : Option String :=
  tier3Loop statAliases oms nStat

/-- Tier 4 as a standalone function (the source's reverse alias loop,
alias-table order outermost). -/
def joinTier4 (oms : List DefenseData) (nStat : String) : Option String :=
  tier4Loop statAliases oms nStat

/-- The Join Engine lookup restated in the spec's strict-tier form: the
first tier producing a candidate wins. Tiers 3 and 4 keep the source's
alias-table-major selection order. -/
def findDefenseStrengthTiered (defenseData : List DefenseData)
    (_team opponent statCategory : String) : Option String :=
  if opponent == "" || statCategory == "" then none
  else
    let nOpp := normalizeTeamForMatching opponent
    let nStat := normalizeStatForMatching statCategory
    let oms := defenseData.filter fun d => normalizeTeamForMatching d.opponent == nOpp
    if oms.isEmpty then none
    else
      firstSomeTier
        [joinTier1 oms nStat, joinTier2 oms nStat, joinTier3 oms nStat, joinTier4 oms nStat]

/-- Tier-3 candidate set as the claim words it: a defense record is a
candidate when some alias group matched by the prop's statistic also
matches the record. -/
def tier3CandSpec (nStat : String) (d : DefenseData) : Bool :=
  statAliases.any fun ka => propMatchesAlias nStat ka.2 && tier3DefMatch ka.1 ka.2 d

/-- Tier-4 candidate set as the claim words it: driven from the defense
record's statistic group membership. -/
def tier4CandSpec (nStat : String) (d : DefenseData) : Bool :=
  statAliases.any fun ka => tier4DefMatch ka.1 d && propMatchesAlias nStat ka.2

/-- Modelled from the claim's words for comparison: every tier —
including tiers 3 and 4 — uses the first candidate in the
DefenseRecord list's original order. -/
def findDefenseStrengthSpecListOrder (defenseData : List DefenseData)
    (_team opponent statCategory : String) : Option String :=
  if opponent == "" || statCategory == "" then none
  else
    let nOpp := normalizeTeamForMatching opponent
    let nStat := normalizeStatForMatching statCategory
    let oms := defenseData.filter fun d => normalizeTeamForMatching d.opponent == nOpp
    if oms.isEmpty then none
    else
      firstSomeTier
        [joinTier1 oms nStat, joinTier2 oms nStat,
         (oms.find? (tier3CandSpec nStat)).map (·.rank),
         (oms.find? (tier4CandSpec nStat)).map (·.rank)]

/-! ## Helper lemmas -/

/-- A successful table lookup returns a stored pair. -/
theorem tblGet_mem {α β : Type} [DecidableEq α] {l : List (α × β)} {k : α} {v : β}
    (h : tblGet l k = some v) : (k, v) ∈ l := by
  induction l with
  | nil => simp [tblGet] at h
  | cons p rest ih =>
    obtain ⟨k', v'⟩ := p
    by_cases hk : k = k'
    · simp only [tblGet, if_pos hk] at h
      obtain rfl := Option.some.inj h
      simp [hk]
    · simp only [tblGet, if_neg hk] at h
      exact List.mem_cons_of_mem _ (ih h)

/-- Every upper-case image is a fixed point of the letter table. -/
theorem ulPairs_closed : ∀ p ∈ ulPairs, (tblGet ulPairs p.2).isNone = true := by decide

/-- ASCII upper-casing is idempotent. -/
theorem charUp_charUp (c : Char) : charUp (charUp c) = charUp c := by
  cases h : tblGet ulPairs c with
  | none =>
    have h1 : charUp c = c := by simp [charUp, h]
    rw [h1]
    exact h1
  | some u =>
    have h1 : charUp c = u := by simp [charUp, h]
    have hmem := tblGet_mem h
    have h2 := ulPairs_closed (c, u) hmem
    have h3 : tblGet ulPairs u = none := by
      cases h4 : tblGet ulPairs u with
      | none => rfl
      | some w => rw [h4] at h2; simp at h2
    rw [h1]
    simp [charUp, h3]

/-- `dropWhile` is idempotent. -/
theorem dropWhile_dropWhile {α : Type} (p : α → Bool) (l : List α) :
    (l.dropWhile p).dropWhile p = l.dropWhile p := by
  cases h : l.dropWhile p with
  | nil => rfl
  | cons a t =>
    have hh := List.head?_dropWhile_not p l
    rw [h] at hh
    simp only [List.head?_cons] at hh
    rw [List.dropWhile_cons_of_neg]
    simp [hh]

/-- A nonempty `dropWhile` keeps the last element. -/
theorem getLast?_dropWhile {α : Type} (p : α → Bool) (l : List α)
    (h : l.dropWhile p ≠ []) : (l.dropWhile p).getLast? = l.getLast? := by
  induction l with
  | nil => simp at h
  | cons a t ih =>
    by_cases hp : p a
    · rw [List.dropWhile_cons_of_pos hp] at h ⊢
      have ht : t ≠ [] := by
        intro he
        rw [he] at h
        simp at h
      obtain ⟨b, t', rfl⟩ := List.exists_cons_of_ne_nil ht
      rw [List.getLast?_cons_cons]
      exact ih h
    · rw [List.dropWhile_cons_of_neg hp]

/-- The head of a trimmed list is not whitespace. -/
theorem head?_wsTrim_not (l : List Char) {c : Char}
    (h : (wsTrim l).head? = some c) : isWSC c = false := by
  unfold wsTrim at h
  rw [List.head?_reverse] at h
  have hBne : (l.dropWhile isWSC).reverse.dropWhile isWSC ≠ [] := by
    intro he
    rw [he] at h
    simp at h
  rw [getLast?_dropWhile _ _ hBne, List.getLast?_reverse] at h
  have hh := List.head?_dropWhile_not isWSC l
  rw [h] at hh
  simpa using hh

/-- The trimmed list has no leading whitespace left. -/
theorem dropWhile_wsTrim (l : List Char) : (wsTrim l).dropWhile isWSC = wsTrim l := by
  cases hT : wsTrim l with
  | nil => simp
  | cons a t =>
    have ha : isWSC a = false := head?_wsTrim_not l (by rw [hT]; rfl)
    rw [List.dropWhile_cons_of_neg (by simp [ha])]

/-- Whitespace trimming is idempotent. -/
theorem wsTrim_idem (l : List Char) : wsTrim (wsTrim l) = wsTrim l := by
  conv_lhs => rw [wsTrim]
  rw [dropWhile_wsTrim]
  unfold wsTrim
  rw [List.reverse_reverse, dropWhile_dropWhile]

/-- Characters survive trimming only if they were in the list. -/
theorem mem_of_mem_wsTrim {c : Char} {l : List Char} (h : c ∈ wsTrim l) : c ∈ l := by
  unfold wsTrim at h
  rw [List.mem_reverse] at h
  have h1 := List.dropWhile_subset (l := (l.dropWhile isWSC).reverse) isWSC h
  rw [List.mem_reverse] at h1
  exact List.dropWhile_subset isWSC h1

/-- `toUpperCase().trim()` is idempotent. -/
theorem upTrim_idem (s : String) : upTrim (upTrim s) = upTrim s := by
  unfold upTrim
  have hfix : (wsTrim (s.data.map charUp)).map charUp = wsTrim (s.data.map charUp) := by
    have : ∀ c ∈ wsTrim (s.data.map charUp), charUp c = c := by
      intro c hc
      have hc2 := mem_of_mem_wsTrim hc
      rw [List.mem_map] at hc2
      obtain ⟨d, _, rfl⟩ := hc2
      exact charUp_charUp d
    calc (wsTrim (s.data.map charUp)).map charUp
        = (wsTrim (s.data.map charUp)).map id := List.map_congr_left this
      _ = wsTrim (s.data.map charUp) := List.map_id _
  have : (String.mk (wsTrim (s.data.map charUp))).data = wsTrim (s.data.map charUp) := rfl
  rw [this, hfix, wsTrim_idem]

/-- Every value of `teamMap` is a key of `teamMap` mapped to itself and
is already upper-cased and trimmed. -/
theorem teamMap_closed :
    ∀ p ∈ teamMap, tblGet teamMap p.2 = some p.2 ∧ upTrim p.2 = p.2 := by decide

/-- Every value of `teamVariations` is a key mapped to itself and is
already upper-cased and trimmed. -/
theorem teamVariations_closed :
    ∀ p ∈ teamVariations, tblGet teamVariations p.2 = some p.2 ∧ upTrim p.2 = p.2 := by
  decide

/-- Every value of `statMap` is a key of `statMap` mapped to itself. -/
theorem statMap_closed : ∀ p ∈ statMap, tblGet statMap p.2 = some p.2 := by decide

/-- Idempotence of `table[upper] || upper` style normalizers, given the
closure property of the table. -/
theorem upTrim_tableNorm_idem (tbl : List (String × String))
    (hcl : ∀ p ∈ tbl, tblGet tbl p.2 = some p.2 ∧ upTrim p.2 = p.2) (s : String) :
    tableLookupNorm tbl (upTrim (tableLookupNorm tbl (upTrim s))) =
      tableLookupNorm tbl (upTrim s) := by
  cases h : tblGet tbl (upTrim s) with
  | none =>
    have h1 : tableLookupNorm tbl (upTrim s) = upTrim s := by
      simp [tableLookupNorm, h]
    rw [h1, upTrim_idem, h1]
  | some v =>
    have h1 : tableLookupNorm tbl (upTrim s) = v := by
      simp [tableLookupNorm, h]
    obtain ⟨hv1, hv2⟩ := hcl (upTrim s, v) (tblGet_mem h)
    rw [h1, hv2]
    simp [tableLookupNorm, hv1]

/-- The forward alias loop only returns ranks of opponent records. -/
theorem tier3Loop_some {al : List (String × List String)} {oms : List DefenseData}
    {ns r : String} (h : tier3Loop al oms ns = some r) : ∃ d ∈ oms, d.rank = r := by
  induction al with
  | nil => simp [tier3Loop] at h
  | cons ka rest ih =>
    obtain ⟨key, aliases⟩ := ka
    simp only [tier3Loop] at h
    split at h
    · cases hf : oms.find? (tier3DefMatch key aliases) with
      | some d =>
        rw [hf] at h
        obtain rfl := Option.some.inj h
        exact ⟨d, List.mem_of_find?_eq_some hf, rfl⟩
      | none =>
        rw [hf] at h
        exact ih h
    · exact ih h

/-- The reverse alias loop only returns ranks of opponent records. -/
theorem tier4Loop_some {al : List (String × List String)} {oms : List DefenseData}
    {ns r : String} (h : tier4Loop al oms ns = some r) : ∃ d ∈ oms, d.rank = r := by
  induction al with
  | nil => simp [tier4Loop] at h
  | cons ka rest ih =>
    obtain ⟨key, aliases⟩ := ka
    simp only [tier4Loop] at h
    cases hf : oms.find? (tier4DefMatch key) with
    | some d =>
      rw [hf] at h
      have h' : (if propMatchesAlias ns aliases = true then some d.rank
          else tier4Loop rest oms ns) = some r := h
      split at h'
      · obtain rfl := Option.some.inj h'
        exact ⟨d, List.mem_of_find?_eq_some hf, rfl⟩
      · exact ih h'
    | none =>
      rw [hf] at h
      exact ih h

/-- Any rank returned by `findDefenseStrength` is the rank of an input
record whose normalized opponent equals the prop's normalized
opponent. -/
theorem findDefenseStrength_some {dd : List DefenseData} {team opp stat r : String}
    (h : findDefenseStrength dd team opp stat = some r) :
    ∃ d ∈ dd, d.rank = r ∧
      normalizeTeamForMatching d.opponent = normalizeTeamForMatching opp := by
  have hmem : ∀ d : DefenseData,
      d ∈ dd.filter
        (fun d => normalizeTeamForMatching d.opponent == normalizeTeamForMatching opp) →
      d ∈ dd ∧ normalizeTeamForMatching d.opponent = normalizeTeamForMatching opp := by
    intro d hd
    rw [List.mem_filter] at hd
    exact ⟨hd.1, by simpa using hd.2⟩
  simp only [findDefenseStrength] at h
  split at h
  · simp at h
  · split at h
    · simp at h
    · cases h1 : (dd.filter
          (fun d => normalizeTeamForMatching d.opponent == normalizeTeamForMatching opp)).find?
          (fun d => normalizeStatForMatching d.position ==
            normalizeStatForMatching stat) with
      | some d =>
        rw [h1] at h
        obtain rfl := Option.some.inj h
        obtain ⟨hd1, hd2⟩ := hmem d (List.mem_of_find?_eq_some h1)
        exact ⟨d, hd1, rfl, hd2⟩
      | none =>
        rw [h1] at h
        cases h2 : (dd.filter
            (fun d => normalizeTeamForMatching d.opponent ==
              normalizeTeamForMatching opp)).find?
            (tier2Match (normalizeStatForMatching stat)) with
        | some d =>
          rw [h2] at h
          obtain rfl := Option.some.inj h
          obtain ⟨hd1, hd2⟩ := hmem d (List.mem_of_find?_eq_some h2)
          exact ⟨d, hd1, rfl, hd2⟩
        | none =>
          rw [h2] at h
          cases h3 : tier3Loop statAliases
              (dd.filter (fun d => normalizeTeamForMatching d.opponent ==
                normalizeTeamForMatching opp))
              (normalizeStatForMatching stat) with
          | some r' =>
            rw [h3] at h
            obtain rfl := Option.some.inj h
            obtain ⟨d, hd, hrank⟩ := tier3Loop_some h3
            obtain ⟨hd1, hd2⟩ := hmem d hd
            exact ⟨d, hd1, hrank, hd2⟩
          | none =>
            rw [h3] at h
            obtain ⟨d, hd, hrank⟩ := tier4Loop_some h
            obtain ⟨hd1, hd2⟩ := hmem d hd
            exact ⟨d, hd1, hrank, hd2⟩

/-- Rows contributed by the five position passes pass the rank
filter. -/
theorem positionPassRows_rank {posRows : String → List RawDefenseRow}
    {r : RawDefenseRow} (h : r ∈ positionPassRows posRows) :
    isRankInRange r.rank = true := by
  unfold positionPassRows at h
  rw [List.mem_flatten] at h
  obtain ⟨l, hl, hr⟩ := h
  rw [List.mem_map] at hl
  obtain ⟨pos, hpos, rfl⟩ := hl
  rw [List.mem_map] at hr
  obtain ⟨r', hr', rfl⟩ := hr
  rw [List.mem_filter] at hr'
  simpa using hr'.2

/-! ## Claim theorems -/

/-- Claim C2 (counterexample): the rank normalisation step does not
follow the standard English ordinal rule — a rank text `21` receives
the suffix `th`, not `st`. -/
theorem normalizeRank_21_not_st :
    normalizeRank "21" = "21th" ∧ normalizeRank "21" ≠ "21st" := by decide

/-- Claim C2 (amended): for extracted rank text with digits but no
ordinal suffix the engine appends the fixed suffix `th`, whatever the
final digit, so `24`, `11`, `13` get `th` as the claim says, but `21`,
`22`, `23` become `21th`, `22th`, `23th`; text that already carries a
suffix is unchanged. -/
theorem normalizeRank_appends_th :
    normalizeRank "24" = "24th" ∧ normalizeRank "21" = "21th" ∧
    normalizeRank "22" = "22th" ∧ normalizeRank "23" = "23th" ∧
    normalizeRank "11" = "11th" ∧ normalizeRank "13" = "13th" ∧
    normalizeRank "32" = "32th" ∧ normalizeRank "25th" = "25th" ∧
    normalizeRank "22nd" = "22nd" := by decide

/-- Claim C7: `canonTeam` (both implementations, `normalizeTeamName` of
the PrizePicks scraper and `normalizeTeamForMatching` of the merge
module) and `canonStat` (`normalizeStatType`) are total — they are
plain functions on all strings, embedded without any failure case —
and idempotent on every input, including unrecognized strings that
fall through to the pass-through branch. -/
theorem canonicalizers_idempotent (s : String) :
    normalizeTeamName (normalizeTeamName s) = normalizeTeamName s ∧
    normalizeStatType (normalizeStatType s) = normalizeStatType s ∧
    normalizeTeamForMatching (normalizeTeamForMatching s) = normalizeTeamForMatching s := by
  refine ⟨?_, ?_, ?_⟩
  · unfold normalizeTeamName
    exact upTrim_tableNorm_idem teamMap teamMap_closed s
  · unfold normalizeStatType
    cases h : tblGet statMap s with
    | none => simp [tableLookupNorm, h]
    | some v =>
      have hv := statMap_closed (s, v) (tblGet_mem h)
      simp [tableLookupNorm, h, hv]
  · unfold normalizeTeamForMatching
    exact upTrim_tableNorm_idem teamVariations teamVariations_closed s

/-- Claim C8 (counterexample): `canonStat`'s lookup is not
case-insensitive. `SOG` and `sog` differ only in letter case (same
lower-casing) yet map to different results: the alias table hits on
`SOG` but passes `sog` through unchanged. -/
theorem normalizeStatType_case_sensitive :
    strLow "SOG" = strLow "sog" ∧ normalizeStatType "SOG" = "Shots on Goal" ∧
    normalizeStatType "sog" = "sog" ∧
    normalizeStatType "SOG" ≠ normalizeStatType "sog" := by decide

/-- Claim C8 (amended): only `canonTeam`'s lookup is case-insensitive
and whitespace-trimmed — any two inputs with the same upper-cased,
trimmed form map to the same code, for both team canonicalizers.
`canonStat`'s lookup is an exact, case- and whitespace-sensitive match
whose misses pass through unchanged. -/
theorem canonTeam_lookup_case_insensitive (x y : String) (h : upTrim x = upTrim y) :
    normalizeTeamName x = normalizeTeamName y ∧
    normalizeTeamForMatching x = normalizeTeamForMatching y := by
  unfold normalizeTeamName normalizeTeamForMatching
  rw [h]
  exact ⟨rfl, rfl⟩

/-- Witness for the amended C8 theorem at `" bos "` and `"BOS"`. -/
theorem canonTeam_lookup_case_insensitive_w :
    normalizeTeamName " bos " = normalizeTeamName "BOS" ∧
    normalizeTeamForMatching " bos " = normalizeTeamForMatching "BOS" :=
  canonTeam_lookup_case_insensitive " bos " "BOS" (by decide)

/-- Claim C4 (counterexample): joining the claim's prop
`{team: BOS, opponent: TOR, statCategory: SOG, line: 2.5}` against the
claim's defense record `{team: TOR, opponent: BOS, statCategory: Shots
on Goal, rank: 25th}` yields `defenseStrength = NA`, not `25th`: the
Join Engine matches the prop's opponent against the record's
`opponent` field, which here is `BOS`, not `TOR`. -/
theorem join_scenario_opponent_orientation :
    (mergePrizePicksProps [⟨"Player One", "BOS", "TOR", "SOG", 2.5, "p1"⟩]
        [⟨"TOR", "BOS", "", "Shots on Goal", "25th"⟩]).map (·.defenseStrength) =
      ["NA"] ∧ ("NA" : String) ≠ "25th" := by decide

/-- Claim C4 (amended): with the defense record oriented so that its
`opponent` field carries the prop's opponent — `{team: BOS, opponent:
TOR, statCategory: Shots on Goal, rank: 25th}` — the join yields
`25th`, and it is resolved at tier 3 via the shots-on-goal alias
group: tiers 1 and 2 produce no candidate and the forward alias tier
returns the rank. -/
theorem join_scenario_amended :
    (mergePrizePicksProps [⟨"Player One", "BOS", "TOR", "SOG", 2.5, "p1"⟩]
        [⟨"BOS", "TOR", "", "Shots on Goal", "25th"⟩]).map (·.defenseStrength) =
      ["25th"] ∧
    joinTier1 [⟨"BOS", "TOR", "", "Shots on Goal", "25th"⟩]
      (normalizeStatForMatching "SOG") = none ∧
    joinTier2 [⟨"BOS", "TOR", "", "Shots on Goal", "25th"⟩]
      (normalizeStatForMatching "SOG") = none ∧
    joinTier3 [⟨"BOS", "TOR", "", "Shots on Goal", "25th"⟩]
      (normalizeStatForMatching "SOG") = some "25th" := by decide

/-- Claim C3 (counterexample): the tiers are tried in order, but within
tier 3 the winning candidate is not the first candidate of the tier in
the DefenseRecord list's original order. For the prop statistic `Shot`
both records below are tier-3 candidates (via the blocked-shots and
shots-on-goal alias groups respectively); list order would pick the
`Blocks` record (`27th`), while the engine iterates the alias table in
key order and picks the `SOG` record (`25th`). -/
theorem join_tier3_not_list_order :
    findDefenseStrength
        [⟨"BOS", "TOR", "", "Blocks", "27th"⟩, ⟨"BOS", "TOR", "", "SOG", "25th"⟩]
        "BOS" "TOR" "Shot" = some "25th" ∧
    findDefenseStrengthSpecListOrder
        [⟨"BOS", "TOR", "", "Blocks", "27th"⟩, ⟨"BOS", "TOR", "", "SOG", "25th"⟩]
        "BOS" "TOR" "Shot" = some "27th" ∧
    tier3CandSpec (normalizeStatForMatching "Shot") ⟨"BOS", "TOR", "", "Blocks", "27th"⟩ = true ∧
    tier3CandSpec (normalizeStatForMatching "Shot") ⟨"BOS", "TOR", "", "SOG", "25th"⟩ = true := by
  decide

/-- `firstSomeTier` of a single tier is that tier. -/
theorem firstSomeTier_single (x : Option String) : firstSomeTier [x] = x := by
  cases x <;> rfl

/-- Claim C3 (amended): the Join Engine evaluates its tiers in strict
order — exact match, substring match, forward alias match, reverse
alias match, `NA` (`none`) — and the first tier producing a candidate
wins. Tiers 1 and 2 take the first candidate in the DefenseRecord
list's original order; tiers 3 and 4 iterate the alias table in its
fixed key order and take, for the first alias group that both sides
match, the first matching record in list order. No scoring is
performed. `findDefenseStrength` equals this strict-tier
recomposition on every input. -/
theorem join_tiers_strict_order (dd : List DefenseData) (team opp stat : String) :
    findDefenseStrength dd team opp stat = findDefenseStrengthTiered dd team opp stat := by
  unfold findDefenseStrength findDefenseStrengthTiered
  by_cases h0 : (opp == "" || stat == "") = true
  · simp [h0]
  · simp only [h0, if_false, Bool.false_eq_true]
    by_cases h1 : (dd.filter fun d =>
        normalizeTeamForMatching d.opponent == normalizeTeamForMatching opp).isEmpty = true
    · simp [h1]
    · simp only [h1, if_false, Bool.false_eq_true]
      cases hA : (dd.filter fun d =>
          normalizeTeamForMatching d.opponent == normalizeTeamForMatching opp).find?
          (fun d => normalizeStatForMatching d.position == normalizeStatForMatching stat) <;>
        cases hB : (dd.filter fun d =>
            normalizeTeamForMatching d.opponent == normalizeTeamForMatching opp).find?
            (tier2Match (normalizeStatForMatching stat)) <;>
        cases hC : tier3Loop statAliases
            (dd.filter fun d =>
              normalizeTeamForMatching d.opponent == normalizeTeamForMatching opp)
            (normalizeStatForMatching stat) <;>
        simp [firstSomeTier, firstSomeTier_single, joinTier1, joinTier2, joinTier3,
          joinTier4, hA, hB, hC]

/-- Claim C5: both merge functions of the Join Engine are pure, total
functions of their two (immutable) input lists: for all inputs they
produce exactly one merged record per input prop, in the input order,
with every field taken from the prop at the same index (and the
defense rank from `findDefenseStrength` on that prop). Totality of the
embedded functions reflects that the source never throws: absence of a
match becomes the `NA` sentinel. -/
theorem merge_one_output_per_prop (props : List PrizePicksProp)
    (uprops : List UnderdogProp) (dd : List DefenseData) :
    (mergePrizePicksProps props dd).length = props.length ∧
    (mergeUnderdogProps uprops dd).length = uprops.length ∧
    (∀ (i : Nat) (p : PrizePicksProp), props[i]? = some p →
      (mergePrizePicksProps props dd)[i]? = some
        { player := p.playerName, team := p.team, opponent := p.opponent,
          position := p.statCategory, stat := p.statCategory, line := p.line,
          defenseStrength :=
            jsOrNA (findDefenseStrength dd p.team p.opponent p.statCategory),
          projectionId := some p.projectionId, gameTime := none }) ∧
    (∀ (i : Nat) (u : UnderdogProp), uprops[i]? = some u →
      (mergeUnderdogProps uprops dd)[i]? = some
        { player := u.playerName, team := u.team, opponent := u.opponent,
          position := u.position.getD "", stat := u.stat, line := u.line,
          defenseStrength := jsOrNA (findDefenseStrength dd u.team u.opponent u.stat),
          projectionId := none, gameTime := u.gameTime }) := by
  refine ⟨by simp [mergePrizePicksProps], by simp [mergeUnderdogProps], ?_, ?_⟩
  · intro i p hp
    simp [mergePrizePicksProps, List.getElem?_map, hp]
  · intro i u hu
    simp [mergeUnderdogProps, List.getElem?_map, hu]

/-- Witness for the C5 theorem at a one-prop input. -/
theorem merge_one_output_per_prop_w :
    (mergePrizePicksProps [⟨"Player Two", "BOS", "TOR", "SOG", 2.5, "p2"⟩] [])[0]? =
      some
        { player := "Player Two", team := "BOS", opponent := "TOR", position := "SOG",
          stat := "SOG", line := 2.5,
          defenseStrength := jsOrNA (findDefenseStrength [] "BOS" "TOR" "SOG"),
          projectionId := some "p2", gameTime := none } :=
  (merge_one_output_per_prop [⟨"Player Two", "BOS", "TOR", "SOG", 2.5, "p2"⟩] [] []).2.2.1
    0 ⟨"Player Two", "BOS", "TOR", "SOG", 2.5, "p2"⟩ rfl

/-- `findDefenseStrength` returns `none` on an empty defense list. -/
theorem findDefenseStrength_nil (team opp stat : String) :
    findDefenseStrength [] team opp stat = none := by
  unfold findDefenseStrength
  split
  · rfl
  · rfl

/-- Claim C6: a prop without a known opponent is merged with
`defenseStrength = NA` — `findDefenseStrength` aborts before any
lookup when the opponent string is empty — and joining any prop list
against an empty DefenseRecord list marks every output `NA`; both
facts hold for both merge functions, with no failure case. -/
theorem merge_absent_opponent_na (dd : List DefenseData) (team stat : String)
    (props : List PrizePicksProp) (uprops : List UnderdogProp) :
    findDefenseStrength dd team "" stat = none ∧
    (∀ (i : Nat) (p : PrizePicksProp), props[i]? = some p → p.opponent = "" →
      ((mergePrizePicksProps props dd)[i]?).map (·.defenseStrength) = some "NA") ∧
    (∀ (i : Nat) (u : UnderdogProp), uprops[i]? = some u → u.opponent = "" →
      ((mergeUnderdogProps uprops dd)[i]?).map (·.defenseStrength) = some "NA") ∧
    (∀ m ∈ mergePrizePicksProps props [], m.defenseStrength = "NA") ∧
    (∀ m ∈ mergeUnderdogProps uprops [], m.defenseStrength = "NA") := by
  have habs : ∀ t s, findDefenseStrength dd t "" s = none := by
    intro t s
    unfold findDefenseStrength
    rw [if_pos]
    simp
  refine ⟨habs team stat, ?_, ?_, ?_, ?_⟩
  · intro i p hp hop
    simp [mergePrizePicksProps, List.getElem?_map, hp, hop, habs, jsOrNA]
  · intro i u hu hop
    simp [mergeUnderdogProps, List.getElem?_map, hu, hop, habs, jsOrNA]
  · intro m hm
    rw [mergePrizePicksProps, List.mem_map] at hm
    obtain ⟨p, _, rfl⟩ := hm
    simp [findDefenseStrength_nil, jsOrNA]
  · intro m hm
    rw [mergeUnderdogProps, List.mem_map] at hm
    obtain ⟨u, _, rfl⟩ := hm
    simp [findDefenseStrength_nil, jsOrNA]

/-- Witness for the C6 theorem: a prop with an empty opponent and a
one-prop merge against the empty defense list. -/
theorem merge_absent_opponent_na_w :
    findDefenseStrength [] "BOS" "" "SOG" = none ∧
    ((mergePrizePicksProps [⟨"Player Three", "BOS", "", "SOG", 2.5, "p3"⟩]
        [⟨"BOS", "TOR", "", "Shots on Goal", "25th"⟩])[0]?).map (·.defenseStrength) =
      some "NA" :=
  ⟨(merge_absent_opponent_na [] "BOS" "SOG" [] []).1,
   (merge_absent_opponent_na [⟨"BOS", "TOR", "", "Shots on Goal", "25th"⟩] "BOS" "SOG"
       [⟨"Player Three", "BOS", "", "SOG", 2.5, "p3"⟩] []).2.1
     0 ⟨"Player Three", "BOS", "", "SOG", 2.5, "p3"⟩ rfl rfl⟩

/-- Claim C10: whenever the Join Engine attaches a defense strength
other than `NA`, that value is the `rank` of some record of the input
defense list whose normalized `opponent` equals the prop's normalized
opponent — a prop is never annotated with a rank from a record for a
different opponent. Stated for the lookup itself and lifted to the
PrizePicks merge. -/
theorem matched_rank_has_matching_opponent (dd : List DefenseData)
    (team opp stat r : String) :
    (findDefenseStrength dd team opp stat = some r →
      ∃ d ∈ dd, d.rank = r ∧
        normalizeTeamForMatching d.opponent = normalizeTeamForMatching opp) ∧
    (∀ (props : List PrizePicksProp) (i : Nat) (m : MergedProp),
      (mergePrizePicksProps props dd)[i]? = some m → m.defenseStrength ≠ "NA" →
      ∃ d ∈ dd, d.rank = m.defenseStrength ∧
        normalizeTeamForMatching d.opponent = normalizeTeamForMatching m.opponent) := by
  constructor
  · exact findDefenseStrength_some
  · intro props i m hm hna
    rw [mergePrizePicksProps, List.getElem?_map] at hm
    cases hp : props[i]? with
    | none => rw [hp] at hm; simp at hm
    | some p =>
      rw [hp] at hm
      simp only [Option.map_some'] at hm
      obtain rfl := Option.some.inj hm
      cases hf : findDefenseStrength dd p.team p.opponent p.statCategory with
      | none =>
        refine absurd ?_ hna
        show jsOrNA (findDefenseStrength dd p.team p.opponent p.statCategory) = "NA"
        rw [hf]
        rfl
      | some r' =>
        by_cases hr : (r' == "") = true
        · refine absurd ?_ hna
          show jsOrNA (findDefenseStrength dd p.team p.opponent p.statCategory) = "NA"
          rw [hf]
          simp [jsOrNA, hr]
        · obtain ⟨d, hd, hrank, hop⟩ := findDefenseStrength_some hf
          refine ⟨d, hd, ?_, hop⟩
          show d.rank = jsOrNA (some r')
          simp [jsOrNA, hr, hrank]

/-- Witness for the C10 theorem: the `25th` annotation comes from the
unique record, whose opponent matches. -/
theorem matched_rank_has_matching_opponent_w :
    ∃ d ∈ ([⟨"BOS", "TOR", "", "Shots on Goal", "25th"⟩] : List DefenseData),
      d.rank = "25th" ∧
        normalizeTeamForMatching d.opponent = normalizeTeamForMatching "TOR" :=
  (matched_rank_has_matching_opponent [⟨"BOS", "TOR", "", "Shots on Goal", "25th"⟩]
      "BOS" "TOR" "SOG" "25th").1 (by decide)

/-- Claim C1 (counterexample): the record list returned to the Join
Engine is not always confined to ranks 24-32. When the position passes
and the first fallback yield nothing, the last-resort extraction's
rows are appended with no rank filter, so a `5th` observation — whose
numeric part decodes to 5, outside `[24, 32]` — reaches the returned
list. -/
theorem scrape_lastResort_rank_out_of_band :
    scrapeDefenseData "BOS" "TOR" "19:00" (fun _ => []) [] [⟨"Hits", "5th"⟩] =
      [⟨"BOS", "TOR", "19:00", "Hits", "5th"⟩] ∧
    rankNum "5th" = some 5 ∧ isRankInRange "5th" = false := by decide

/-- Claim C1 (amended): every record retained from the five position
passes or from the first unfiltered pass has a rank in the 24-32 band;
only the final last-resort extraction — reached exactly when the
spec's single-fallback engine would have ended empty — can contribute
records with out-of-band ranks, and those are passed through
unfiltered. -/
theorem scrape_rank_filter_except_last_resort
    (posRows : String → List RawDefenseRow) (f1 f2 : List RawDefenseRow)
    (r : RawDefenseRow) (h : r ∈ (scrapeDefenseRows posRows f1 f2).1) :
    isRankInRange r.rank = true ∨
      (scrapeDefenseRowsSpecSingleFallback posRows f1 = [] ∧ r ∈ f2) := by
  simp only [scrapeDefenseRows] at h
  by_cases h2 : (scrapeStep2 posRows f1).isEmpty = true
  · rw [if_pos h2] at h
    rw [List.isEmpty_iff] at h2
    rw [h2, List.nil_append] at h
    right
    refine ⟨?_, h⟩
    unfold scrapeStep2 at h2
    unfold scrapeDefenseRowsSpecSingleFallback
    by_cases h1 : (positionPassRows posRows).isEmpty = true
    · rw [if_pos h1] at h2 ⊢
      rw [List.isEmpty_iff] at h1
      rw [h1, List.nil_append] at h2
      exact h2
    · rw [if_neg h1] at h2
      rw [List.isEmpty_iff] at h1
      exact absurd h2 h1
  · rw [if_neg h2] at h
    unfold scrapeStep2 at h
    by_cases h1 : (positionPassRows posRows).isEmpty = true
    · rw [if_pos h1] at h
      rw [List.isEmpty_iff] at h1
      rw [h1, List.nil_append] at h
      rw [List.mem_filter] at h
      left
      exact h.2
    · rw [if_neg h1] at h
      left
      exact positionPassRows_rank h

/-- Witness for the amended C1 theorem: a position pass yields a row,
so its rank is in band. -/
theorem scrape_rank_filter_except_last_resort_w :
    isRankInRange (⟨"LW - Hits", "25th"⟩ : RawDefenseRow).rank = true ∨
      (scrapeDefenseRowsSpecSingleFallback (fun _ => [⟨"Hits", "25th"⟩]) [] = [] ∧
        (⟨"LW - Hits", "25th"⟩ : RawDefenseRow) ∈ ([] : List RawDefenseRow)) :=
  scrape_rank_filter_except_last_resort (fun _ => [⟨"Hits", "25th"⟩]) [] []
    ⟨"LW - Hits", "25th"⟩ (by decide)

/-- Claim C9 (counterexample): the engine does not stop after one
additional unfiltered extraction attempt. With all five position
passes and the first unfiltered attempt empty, a second, last-resort
extraction attempt is made and its rows are returned (both consulted
flags are true), whereas the claimed single-attempt policy would have
returned the empty list. -/
theorem scrape_two_fallback_attempts :
    scrapeDefenseRows (fun _ => []) [] [⟨"Hits", "25th"⟩] =
      ([⟨"Hits", "25th"⟩], true, true) ∧
    scrapeDefenseRowsSpecSingleFallback (fun _ => []) [] = [] := by decide

/-- Claim C9 (amended): when the five position passes produce zero
records the engine performs a first additional position-unfiltered
extraction attempt (still rank-filtered); if that also yields nothing
it performs one final last-resort extraction attempt, unfiltered, and
then stops. Equivalently: the engine agrees with the single-fallback
policy except that, exactly when that policy would end with zero
records, the last-resort attempt's rows are returned verbatim. -/
theorem scrape_fallback_policy_amended (posRows : String → List RawDefenseRow)
    (f1 f2 : List RawDefenseRow) :
    (scrapeDefenseRows posRows f1 f2).1 = scrapeDefenseRowsSpecSingleFallback posRows f1 ∨
      (scrapeDefenseRowsSpecSingleFallback posRows f1 = [] ∧
        (scrapeDefenseRows posRows f1 f2).1 = f2) := by
  simp only [scrapeDefenseRows]
  by_cases h2 : (scrapeStep2 posRows f1).isEmpty = true
  · right
    have h2' := h2
    rw [List.isEmpty_iff] at h2'
    unfold scrapeStep2 at h2'
    constructor
    · unfold scrapeDefenseRowsSpecSingleFallback
      by_cases h1 : (positionPassRows posRows).isEmpty = true
      · rw [if_pos h1] at h2' ⊢
        rw [List.isEmpty_iff] at h1
        rw [h1, List.nil_append] at h2'
        exact h2'
      · rw [if_neg h1] at h2'
        rw [List.isEmpty_iff] at h1
        exact absurd h2' h1
    · rw [if_pos h2]
      rw [List.isEmpty_iff] at h2
      rw [h2, List.nil_append]
  · left
    rw [if_neg h2]
    unfold scrapeStep2
    unfold scrapeDefenseRowsSpecSingleFallback
    dsimp only
    by_cases h1 : (positionPassRows posRows).isEmpty = true
    · rw [if_pos h1, if_pos h1]
      rw [List.isEmpty_iff] at h1
      rw [h1, List.nil_append]
    · rw [if_neg h1, if_neg h1]

/-- Witness for the C7 theorem at the input `la`. -/
theorem canonicalizers_idempotent_w :
    normalizeTeamName (normalizeTeamName "la") = normalizeTeamName "la" ∧
    normalizeStatType (normalizeStatType "la") = normalizeStatType "la" ∧
    normalizeTeamForMatching (normalizeTeamForMatching "la") =
      normalizeTeamForMatching "la" :=
  canonicalizers_idempotent "la"

/-- Witness for the amended C3 theorem at a concrete join input. -/
theorem join_tiers_strict_order_w :
    findDefenseStrength [⟨"BOS", "TOR", "", "Shots on Goal", "25th"⟩] "BOS" "TOR" "SOG" =
      findDefenseStrengthTiered [⟨"BOS", "TOR", "", "Shots on Goal", "25th"⟩]
        "BOS" "TOR" "SOG" :=
  join_tiers_strict_order [⟨"BOS", "TOR", "", "Shots on Goal", "25th"⟩] "BOS" "TOR" "SOG"

/-- Witness for the amended C9 theorem at a concrete extraction run. -/
theorem scrape_fallback_policy_amended_w :
    (scrapeDefenseRows (fun _ => [⟨"Hits", "25th"⟩]) [] []).1 =
        scrapeDefenseRowsSpecSingleFallback (fun _ => [⟨"Hits", "25th"⟩]) [] ∨
      (scrapeDefenseRowsSpecSingleFallback (fun _ => [⟨"Hits", "25th"⟩]) [] = [] ∧
        (scrapeDefenseRows (fun _ => [⟨"Hits", "25th"⟩]) [] []).1 = []) :=
  scrape_fallback_policy_amended (fun _ => [⟨"Hits", "25th"⟩]) [] []
